import Mathlib

/-!
Verification development for the feedback extraction-and-validation pipeline
(`src/ai/flows/extract-and-validate-feedback.ts` and its earlier variant).

The pipeline takes a student-written system instruction and a block of
customer-feedback lines, invokes a generative model, recovers a sequence of
candidate JSON records from the (possibly malformed) model output, validates
each candidate against a four-field schema, and produces one pass/fail result
per non-blank input line.

JavaScript values flowing through the pipeline are modelled by `JSValue`
(JSON numbers are modelled as integers; none of the verified properties
depends on fractional numeric values).  The possibly-absent model output
(`output` may be `undefined` in the source) is modelled as `Option JSValue`.
-/

/-- A JSON-like JavaScript value. -/
inductive JSValue where
  | null : JSValue
  | bool : Bool → JSValue
  | num : Int → JSValue
  | str : String → JSValue
  | arr : List JSValue → JSValue
  | obj : List (String × JSValue) → JSValue
deriving Repr

/-- JavaScript truthiness of a `JSValue` (as used by `if (candidate)` and
`x || y` in the source): `null`, `false`, `0` and the empty string are falsy;
arrays and objects are always truthy. -/
def truthy : JSValue → Bool
  | .null => false
  | .bool b => b
  | .num n => n != 0
  | .str s => s.length != 0
  | .arr _ => true
  | .obj _ => true

/-- Property lookup on a JavaScript object built from a JSON member list.
When a key occurs more than once the later occurrence wins, as it does for
`JSON.parse` building a JS object. -/
def jlookup : List (String × JSValue) → String → Option JSValue
  | [], _ => none
  | (k', v) :: rest, k =>
    match jlookup rest k with
    | some w => some w
    | none => if k' = k then some v else none

/-- The validated feedback record — the target shape of `FeedbackSchema`
(`z.object` with fields `entidad`, `polaridad`, `categoria`, `urgencia`). -/
structure FeedbackRecord where
  entidad : String
  polaridad : String
  categoria : List String
  urgencia : Bool
deriving Repr, DecidableEq

/-- Validation status of one line (`'Success' | 'Failure'` in the source). -/
inductive ValidationStatus where
  | Success : ValidationStatus
  | Failure : ValidationStatus
deriving Repr, DecidableEq

/-- One entry of `validatedResults` in the source output schema. -/
structure LineResult where
  originalText : String
  parsedResult : Option FeedbackRecord
  validationStatus : ValidationStatus
deriving Repr, DecidableEq

/-- The flow output (`rawResponse` plus `validatedResults`). -/
structure EvaluationOutput where
  rawResponse : String
  validatedResults : List LineResult
deriving Repr, DecidableEq

/-- The flow input (`systemInstruction` plus `textContent`). -/
structure ExtractInput where
  systemInstruction : String
  textContent : String
deriving Repr, DecidableEq

/-- Field parser for `entidad : z.string()` — any string, including the
empty string. -/
def parseEntidad : Option JSValue → Option String
  | some (.str s) => some s
  | _ => none

/-- Field parser for `polaridad : z.enum(['Amor', 'Odio'])` — exact,
case-sensitive match of one of the two literals; non-strings fail. -/
def parsePolaridad : Option JSValue → Option String
  | some (.str s) => if s = "Amor" ∨ s = "Odio" then some s else none
  | _ => none

/-- One element of the `categoria` array: `z.enum(['Atención', 'App',
'Cajeros'])`. -/
def parseCatElem : JSValue → Option String
  | .str s => if s = "Atención" ∨ s = "App" ∨ s = "Cajeros" then some s else none
  | _ => none

/-- All elements of a `categoria` array, failing the whole list when any
element fails (zod rejects the array when any element is invalid). -/
def parseCategoriaList : List JSValue → Option (List String)
  | [] => some []
  | x :: xs =>
    match parseCatElem x, parseCategoriaList xs with
    | some c, some cs => some (c :: cs)
    | _, _ => none

/-- Field parser for `categoria : z.array(z.enum([...]))` — must be an
array, every element one of the three literals; the empty array is valid. -/
def parseCategoria : Option JSValue → Option (List String)
  | some (.arr xs) => parseCategoriaList xs
  | _ => none

/-- Field parser for `urgencia : z.boolean()` — a genuine boolean only;
no truthy/falsy coercions. -/
def parseUrgencia : Option JSValue → Option Bool
  | some (.bool b) => some b
  | _ => none

/-- `FeedbackSchema.parse` as an option-returning function: `z.object`
accepts a plain object, parses the four declared fields and strips any
other field; a missing or invalid field rejects the whole candidate.
`none` models the thrown `ZodError` (always caught at call sites). -/
def FeedbackSchema_parse : JSValue → Option FeedbackRecord
  | .obj fs =>
    match parseEntidad (jlookup fs "entidad"), parsePolaridad (jlookup fs "polaridad"),
          parseCategoria (jlookup fs "categoria"), parseUrgencia (jlookup fs "urgencia") with
    | some e, some p, some c, some u => some ⟨e, p, c, u⟩
    | _, _, _, _ => none
  | _ => none

/-- Opening brace character (written via its code point). -/
def braceOpen : Char := Char.ofNat 123

/-- Closing brace character (written via its code point). -/
def braceClose : Char := Char.ofNat 125

/-- JSON whitespace characters. -/
def isJsonWs (c : Char) : Bool :=
  c = ' ' || c = '\t' || c = '\n' || c = '\r'

/-- Skip leading JSON whitespace. -/
def skipWs : List Char → List Char
  | [] => []
  | c :: cs => if isJsonWs c then skipWs cs else c :: cs

/-- Value of a hexadecimal digit, if any. -/
def hexVal (c : Char) : Option Nat :=
  if '0' ≤ c ∧ c ≤ '9' then some (c.toNat - 48)
  else if 'a' ≤ c ∧ c ≤ 'f' then some (c.toNat - 87)
  else if 'A' ≤ c ∧ c ≤ 'F' then some (c.toNat - 55)
  else none

/-- Body of a JSON string literal, after the opening quote: returns the
decoded string and the input remaining after the closing quote.  Handles
the standard escapes; unescaped control characters are rejected as
`JSON.parse` rejects them. -/
def parseStringBody : List Char → Option (String × List Char)
  | [] => none
  | '"' :: rest => some ("", rest)
  | '\\' :: e :: rest =>
    if e = '"' ∨ e = '\\' ∨ e = '/' then
      (parseStringBody rest).map (fun p => (String.singleton e ++ p.1, p.2))
    else if e = 'n' then (parseStringBody rest).map (fun p => ("\n" ++ p.1, p.2))
    else if e = 't' then (parseStringBody rest).map (fun p => ("\t" ++ p.1, p.2))
    else if e = 'r' then (parseStringBody rest).map (fun p => ("\r" ++ p.1, p.2))
    else if e = 'b' then
      (parseStringBody rest).map (fun p => (String.singleton (Char.ofNat 8) ++ p.1, p.2))
    else if e = 'f' then
      (parseStringBody rest).map (fun p => (String.singleton (Char.ofNat 12) ++ p.1, p.2))
    else if e = 'u' then
      match rest with
      | h1 :: h2 :: h3 :: h4 :: rest' =>
        match hexVal h1, hexVal h2, hexVal h3, hexVal h4 with
        | some a, some b, some c, some d =>
          (parseStringBody rest').map
            (fun p => (String.singleton (Char.ofNat (((a * 16 + b) * 16 + c) * 16 + d)) ++ p.1, p.2))
        | _, _, _, _ => none
      | _ => none
    else none
  | c :: rest =>
    if c.toNat < 32 then none
    else (parseStringBody rest).map (fun p => (String.singleton c ++ p.1, p.2))

/-- Leading run of decimal digits. -/
def spanDigits : List Char → (List Nat × List Char)
  | [] => ([], [])
  | c :: cs =>
    if c.isDigit then
      let p := spanDigits cs
      ((c.toNat - 48) :: p.1, p.2)
    else ([], c :: cs)

/-- A JSON integer literal: optional minus sign, then `0` or a nonzero
digit followed by digits (JSON rejects leading zeros).  Fractional parts
and exponents are not modelled (no verified property involves them). -/
def parseNumber (cs : List Char) : Option (JSValue × List Char) :=
  let signed : Bool × List Char :=
    match cs with
    | '-' :: rest => (true, rest)
    | _ => (false, cs)
  match signed.2 with
  | [] => none
  | c :: rest =>
    if c = '0' then
      some (JSValue.num 0, rest)
    else if c.isDigit then
      let p := spanDigits (c :: rest)
      let n : Int := p.1.foldl (fun a d => 10 * a + (d : Int)) 0
      some (JSValue.num (if signed.1 then -n else n), p.2)
    else none

/-- Insert a parsed object member, overwriting an earlier member with the
same key (for `jlookup` the later occurrence wins anyway; this keeps the
member list duplicate-free, as a JS object is). -/
def upsertMember (fs : List (String × JSValue)) (k : String) (v : JSValue) :
    List (String × JSValue) :=
  fs.filter (fun kv => kv.1 != k) ++ [(k, v)]

mutual

/-- Recursive-descent parser for one JSON value (fuelled; the fuel is
spent on every recursive step, so any fuel above twice the input length
is enough).  Returns the value and the unconsumed input. -/
def parseValue : Nat → List Char → Option (JSValue × List Char)
  | 0, _ => none
  | Nat.succ fuel, cs =>
    match skipWs cs with
    | [] => none
    | 'n' :: 'u' :: 'l' :: 'l' :: rest => some (JSValue.null, rest)
    | 't' :: 'r' :: 'u' :: 'e' :: rest => some (JSValue.bool true, rest)
    | 'f' :: 'a' :: 'l' :: 's' :: 'e' :: rest => some (JSValue.bool false, rest)
    | c :: rest =>
      if c = '"' then
        (parseStringBody rest).map (fun p => (JSValue.str p.1, p.2))
      else if c = '[' then
        match skipWs rest with
        | ']' :: rest' => some (JSValue.arr [], rest')
        | cs' => parseArrayItems fuel cs' []
      else if c = braceOpen then
        match skipWs rest with
        | cs' =>
          if cs'.head? = some braceClose then some (JSValue.obj [], cs'.tail)
          else parseObjMembers fuel cs' []
      else
        parseNumber (c :: rest)

/-- Comma-separated array items up to the closing bracket. -/
def parseArrayItems : Nat → List Char → List JSValue → Option (JSValue × List Char)
  | 0, _, _ => none
  | Nat.succ fuel, cs, acc =>
    match parseValue fuel cs with
    | none => none
    | some (v, rest) =>
      match skipWs rest with
      | ',' :: rest' => parseArrayItems fuel rest' (acc ++ [v])
      | ']' :: rest' => some (JSValue.arr (acc ++ [v]), rest')
      | _ => none

/-- Comma-separated `"key": value` members up to the closing brace. -/
def parseObjMembers : Nat → List Char → List (String × JSValue) →
    Option (JSValue × List Char)
  | 0, _, _ => none
  | Nat.succ fuel, cs, acc =>
    match skipWs cs with
    | '"' :: rest =>
      match parseStringBody rest with
      | none => none
      | some (k, rest') =>
        match skipWs rest' with
        | ':' :: rest'' =>
          match parseValue fuel rest'' with
          | none => none
          | some (v, rest3) =>
            match skipWs rest3 with
            | ',' :: rest4 => parseObjMembers fuel rest4 (upsertMember acc k v)
            | d :: rest4 =>
              if d = braceClose then some (JSValue.obj (upsertMember acc k v), rest4)
              else none
            | [] => none
        | _ => none
    | _ => none

end

/-- `JSON.parse` on a whole string: one value, optionally surrounded by
whitespace; anything trailing is a syntax error (`none` models the thrown
`SyntaxError`, always caught at call sites). -/
def jsonParse (s : String) : Option JSValue :=
  match parseValue (2 * s.length + 8) s.data with
  | some (v, rest) => if skipWs rest = [] then some v else none
  | none => none

/-- Lower-case hexadecimal digit character. -/
def hexDigitChar (n : Nat) : Char :=
  if n < 10 then Char.ofNat (48 + n) else Char.ofNat (87 + n)

/-- Escape one character for a JSON string literal, as `JSON.stringify`
does. -/
def escChar (c : Char) : String :=
  if c = '"' then "\\\""
  else if c = '\\' then "\\\\"
  else if c = '\n' then "\\n"
  else if c = '\t' then "\\t"
  else if c = '\r' then "\\r"
  else if c = Char.ofNat 8 then "\\b"
  else if c = Char.ofNat 12 then "\\f"
  else if c.toNat < 32 then
    "\\u00" ++ String.singleton (hexDigitChar (c.toNat / 16))
      ++ String.singleton (hexDigitChar (c.toNat % 16))
  else String.singleton c

/-- A JSON string literal for `s`, quotes included. -/
def escapeJsonString (s : String) : String :=
  "\"" ++ String.join (s.data.map escChar) ++ "\""

/-- Indentation of `2 * n` spaces (`JSON.stringify(_, null, 2)` uses a
two-space indent per nesting level). -/
def indentStr (n : Nat) : String :=
  String.mk (List.replicate (2 * n) ' ')

mutual

/-- `JSON.stringify(v, null, 2)`: pretty-printed JSON with two-space
indentation; `level` is the current nesting depth. -/
def jsonStringify (level : Nat) : JSValue → String
  | .null => "null"
  | .bool b => if b then "true" else "false"
  | .num n => toString n
  | .str s => escapeJsonString s
  | .arr [] => "[]"
  | .arr (x :: xs) =>
    "[\n" ++ String.intercalate ",\n" (jsonStringifyItems (level + 1) (x :: xs))
      ++ "\n" ++ indentStr level ++ "]"
  | .obj [] => "\x7b\x7d"
  | .obj (m :: ms) =>
    "\x7b\n" ++ String.intercalate ",\n" (jsonStringifyMembers (level + 1) (m :: ms))
      ++ "\n" ++ indentStr level ++ "\x7d"

/-- Indented renderings of the items of an array. -/
def jsonStringifyItems (level : Nat) : List JSValue → List String
  | [] => []
  | v :: vs => (indentStr level ++ jsonStringify level v) :: jsonStringifyItems level vs

/-- Indented renderings of the members of an object. -/
def jsonStringifyMembers (level : Nat) : List (String × JSValue) → List String
  | [] => []
  | (k, v) :: ms =>
    (indentStr level ++ escapeJsonString k ++ ": " ++ jsonStringify level v)
      :: jsonStringifyMembers level ms

end

/-- `JSON.stringify(output, null, 2)` on the possibly-undefined model
output: `JSON.stringify(undefined)` is `undefined`, not a string. -/
def jsonStringifyOpt : Option JSValue → Option String
  | some v => some (jsonStringify 0 v)
  | none => none

/-- Helper of `splitNl`: accumulates the current line (reversed) while
scanning for the next newline. -/
def splitNlAux : List Char → List Char → List String
  | [], acc => [String.mk acc.reverse]
  | c :: rest, acc =>
    if c = '\n' then String.mk acc.reverse :: splitNlAux rest []
    else splitNlAux rest (c :: acc)

/-- JavaScript `s.split('\n')`: the (possibly empty) segments between
newline separators; the empty string splits to `[""]`. -/
def splitNl (s : String) : List String :=
  splitNlAux s.data []

/-- A character removed by JavaScript `trim` (the common whitespace
characters: space, tab, newline, carriage return, vertical tab, form
feed). -/
def isTrimWs (c : Char) : Bool :=
  c = ' ' || c = '\t' || c = '\n' || c = '\r' || c = Char.ofNat 11 || c = Char.ofNat 12

/-- JavaScript `s.trim()`: strip leading and trailing whitespace. -/
def jsTrim (s : String) : String :=
  String.mk (((s.data.dropWhile isTrimWs).reverse.dropWhile isTrimWs).reverse)

/-- The canonical line list of the flow:
`textContent.split('\n').filter(line => line.trim().length > 0)`. -/
def nonBlankLines (textContent : String) : List String :=
  (splitNl textContent).filter (fun line => decide (0 < (jsTrim line).length))

/-- Per-line validation step of the flow
(`extract-and-validate-feedback.ts`, lines 128–144): when the candidate
exists and is truthy, `FeedbackSchema.parse` is attempted inside a
`try`/`catch`; otherwise the line fails with a `null` record. -/
def validateLine (line : String) (candidate : Option JSValue) : LineResult :=
  match candidate with
  | some c =>
    if truthy c then
      match FeedbackSchema_parse c with
      | some r => ⟨line, some r, ValidationStatus.Success⟩
      | none => ⟨line, none, ValidationStatus.Failure⟩
    else ⟨line, none, ValidationStatus.Failure⟩
  | none => ⟨line, none, ValidationStatus.Failure⟩

/-- The aligner: `textLines.map((line, index) => ...jsonResults[index]...)`,
embedded as a recursion that pairs each line with the candidate at its
position (`none` when the candidate list is exhausted, i.e. the
out-of-bounds `undefined` of a JS array read). -/
def alignLines : List String → List JSValue → List LineResult
  | [], _ => []
  | line :: rest, cands => validateLine line cands.head? :: alignLines rest cands.tail

/-- The candidate recovery of the flow (lines 115–126): a string output is
parsed whole with `JSON.parse` (a thrown `SyntaxError` is caught, leaving
no candidates); an array is used directly; a truthy non-array object is
wrapped as a singleton; everything else yields no candidates. -/
def flowCandidates (output : Option JSValue) : List JSValue :=
  match (match output with
         | some (JSValue.str s) => jsonParse s
         | other => other) with
  | some (JSValue.arr xs) => xs
  | some (JSValue.obj fs) => [JSValue.obj fs]
  | _ => []

/-- The audit field of the flow (line 111):
`typeof output === 'string' ? output : JSON.stringify(output, null, 2) || '[]'`. -/
def flowRawResponse (output : Option JSValue) : String :=
  match output with
  | some (JSValue.str s) => s
  | other =>
    match jsonStringifyOpt other with
    | some s => if s = "" then "[]" else s
    | none => "[]"

/-- `extractAndValidateFeedbackFlow` (lines 101–158): builds `rawResponse`,
recovers candidates from the model output, and aligns them with the
non-blank input lines.  The model output handed to the flow body is the
`output` field of the prompt response. -/
def extractAndValidateFeedbackFlow (output : Option JSValue) (input : ExtractInput) :
    EvaluationOutput :=
  { rawResponse := flowRawResponse output
    validatedResults := alignLines (nonBlankLines input.textContent) (flowCandidates output) }

/-- `extractAndValidateFeedback` (lines 41–58): the public wrapper.  The
model call either resolves with an output (`Except.ok`) or rejects with an
error whose `message` is the given string (`Except.error`; an absent or
empty message is the empty string, as `error.message || default` treats
both the same).  On rejection the wrapper synthesizes the fallback
`EvaluationOutput` instead of propagating the fault. -/
def extractAndValidateFeedback (call : Except String (Option JSValue))
    (input : ExtractInput) : EvaluationOutput :=
  match call with
  | Except.ok output => extractAndValidateFeedbackFlow output input
  | Except.error msg =>
    { rawResponse :=
        "Error en la evaluación: "
          ++ (if msg = "" then "Error desconocido del motor de IA" else msg)
      validatedResults :=
        (nonBlankLines input.textContent).map
          (fun line => ⟨line, none, ValidationStatus.Failure⟩) }

namespace V1

/-- Per-line fallback of the earlier flow variant (`part_002`, lines
74–86): each entry of `textLines` — the lines of `input.textContent`, not
of the raw model response — is parsed as JSON and then schema-validated,
with `null` recorded at positions that fail either step. -/
def fallbackLineResults (textLines : List String) : List (Option FeedbackRecord) :=
  textLines.map (fun line =>
    match jsonParse line with
    | some parsed => FeedbackSchema_parse parsed
    | none => none)

/-- Candidate recovery of the earlier flow variant (`part_002`, lines
62–91): `JSON.parse(rawResponse!).map(item => try FeedbackSchema.parse
catch null)`.  When `JSON.parse` throws, or parses to a value with no
`.map` method (anything that is not an array, making `.map` a
`TypeError`), the `catch` falls back to the per-line strategy above. -/
def flowJsonResults (rawResponse : String) (textLines : List String) :
    List (Option FeedbackRecord) :=
  match jsonParse rawResponse with
  | some (JSValue.arr xs) => xs.map (fun item => FeedbackSchema_parse item)
  | _ => fallbackLineResults textLines

/-- Aligner of the earlier flow variant (`part_002`, lines 93–101):
`parsedResult = jsonResults[index] || null` (an out-of-bounds read is
`undefined`, hence `null`), and `status` is `Success` exactly when the
record is present (a record object is always truthy). -/
def alignV1 : List String → List (Option FeedbackRecord) → List LineResult
  | [], _ => []
  | line :: rest, cands =>
    { originalText := line
      parsedResult := cands.head?.join
      validationStatus :=
        match cands.head?.join with
        | some _ => ValidationStatus.Success
        | none => ValidationStatus.Failure }
      :: alignV1 rest cands.tail

/-- `extractAndValidateFeedbackFlow` of the earlier variant (`part_002`,
lines 51–108): the output schema is `z.string()`, so the raw response is
a string and is returned verbatim; `textLines` is
`input.textContent.split('\n')` with no blank-line filtering. -/
def extractAndValidateFeedbackFlow (rawResponse : String) (input : ExtractInput) :
    EvaluationOutput :=
  { rawResponse := rawResponse
    validatedResults :=
      alignV1 (splitNl input.textContent)
        (flowJsonResults rawResponse (splitNl input.textContent)) }

end V1

/-- First fixed fragment of the prompt template of
`extractFeedbackPrompt` (`extract-and-validate-feedback.ts`, lines
73–98), up to the `systemInstruction` placeholder. -/
def promptTemplateA : String :=
  "\n    You are an expert data extraction assistant specialized in customer feedback analysis.\n    \n    SYSTEM INSTRUCTION:\n    "

/-- Second fixed fragment of the prompt template, between the
`systemInstruction` and `textContent` placeholders. -/
def promptTemplateB : String :=
  "\n    \n    TASK:\n    Analyze the text content provided below and extract structured information for EACH line of feedback.\n    Return the result as a valid JSON array of objects.\n    \n    JSON STRUCTURE FOR EACH ITEM:\n    \x7b\n      \"entidad\": string,\n      \"polaridad\": \"Amor\" | \"Odio\",\n      \"categoria\": [\"Atención\" | \"App\" | \"Cajeros\"],\n      \"urgencia\": boolean\n    \x7d\n    \n    CONSTRAINTS:\n    - Return ONLY the JSON array. Do not include markdown code blocks or explanations.\n    - Match the number of items in the array to the number of non-empty lines in the input text.\n    - Ensure enums like \"Amor\"/\"Odio\" and categories are matched exactly as specified.\n    \n    TEXT CONTENT:\n    "

/-- Final fixed fragment of the prompt template, after the `textContent`
placeholder. -/
def promptTemplateC : String := "\n  "

/-- The prompt text the model receives: the Handlebars template with
`{{{systemInstruction}}}` and `{{{textContent}}}` substituted verbatim.
The `textContent` slot receives the raw `textContent` of the flow input. -/
def buildPrompt (systemInstruction textContent : String) : String :=
  promptTemplateA ++ systemInstruction ++ promptTemplateB ++ textContent ++ promptTemplateC

/-- The flow input as built by the calling page (`part_001`,
`runEvaluation`, lines 91–94): the instruction is trimmed at the call
site, the file content is passed through unchanged. -/
def runEvaluationInput (systemInstruction fileContent : String) : ExtractInput :=
  { systemInstruction := jsTrim systemInstruction
    textContent := fileContent }

/-- Spec-side constraint for `entidad`: a string (the empty string
included). -/
def validEntidad : JSValue → Bool
  | .str _ => true
  | _ => false

/-- Spec-side constraint for `polaridad`: exactly one of the two enum
literals, case-sensitively; non-strings fail. -/
def validPolaridad : JSValue → Bool
  | .str s => s == "Amor" || s == "Odio"
  | _ => false

/-- Spec-side constraint for one element of `categoria`. -/
def validCatElem : JSValue → Bool
  | .str s => s == "Atención" || s == "App" || s == "Cajeros"
  | _ => false

/-- Spec-side constraint for `categoria`: a collection whose every element
is one of the three literals; the empty collection is valid. -/
def validCategoria : JSValue → Bool
  | .arr xs => xs.all validCatElem
  | _ => false

/-- Spec-side constraint for `urgencia`: a genuine boolean. -/
def validUrgencia : JSValue → Bool
  | .bool _ => true
  | _ => false

/-- Spec-side validity of a candidate, following the words of the spec
(§4.1): an object whose four fields all satisfy their constraints. -/
def specValid : JSValue → Bool
  | .obj fs =>
    (jlookup fs "entidad").any validEntidad
      && (jlookup fs "polaridad").any validPolaridad
      && (jlookup fs "categoria").any validCategoria
      && (jlookup fs "urgencia").any validUrgencia
  | _ => false

/-- Spec-side well-formedness of a constructed record: the enum fields
hold only permitted literals. -/
def wellFormedRecord (r : FeedbackRecord) : Bool :=
  (r.polaridad == "Amor" || r.polaridad == "Odio")
    && r.categoria.all (fun c => c == "Atención" || c == "App" || c == "Cajeros")

/-- The per-line invariant claimed for every `LineResult` of the pipeline:
`Success` exactly when a record is present, any present record satisfies
the enum constraints of the four-field schema, and `Failure` always pairs
with an absent record. -/
def lineResultInvariant (r : LineResult) : Prop :=
  (r.validationStatus = ValidationStatus.Success ↔ r.parsedResult ≠ none)
    ∧ (∀ rec, r.parsedResult = some rec → wellFormedRecord rec = true)
    ∧ (r.validationStatus = ValidationStatus.Failure → r.parsedResult = none)

/-- Spec-side reading of the audit contract (§4.4): `raw` shows exactly
what the model produced — verbatim for a string output, the serialized
form for a structured output; when the model produced no output at all
there is nothing a string could show. -/
def rawShowsModelOutput (output : Option JSValue) (raw : String) : Prop :=
  match output with
  | some (JSValue.str s) => raw = s
  | some v => raw = jsonStringify 0 v
  | none => False

theorem parseEntidad_isSome (o : Option JSValue) :
    (parseEntidad o).isSome = o.any validEntidad := by
  rcases o with _ | v
  · rfl
  · cases v <;> rfl

theorem parsePolaridad_isSome (o : Option JSValue) :
    (parsePolaridad o).isSome = o.any validPolaridad := by
  rcases o with _ | v
  · rfl
  · cases v <;> simp [parsePolaridad, validPolaridad, Option.any] <;> split <;> simp_all

theorem parseCatElem_isSome (v : JSValue) :
    (parseCatElem v).isSome = validCatElem v := by
  cases v <;> simp only [parseCatElem, validCatElem, Option.isSome_none]
  split <;> simp_all <;> tauto

theorem parseCategoriaList_isSome (xs : List JSValue) :
    (parseCategoriaList xs).isSome = xs.all validCatElem := by
  induction xs with
  | nil => rfl
  | cons x xs ih =>
    simp only [parseCategoriaList, List.all_cons]
    rcases hx : parseCatElem x with _ | c
    · have := parseCatElem_isSome x
      rw [hx] at this
      simp [← this]
    · have := parseCatElem_isSome x
      rw [hx] at this
      rcases hxs : parseCategoriaList xs with _ | cs
      · rw [hxs] at ih
        simp [← this, ← ih]
      · rw [hxs] at ih
        simp [← this, ← ih]

theorem parseCategoria_isSome (o : Option JSValue) :
    (parseCategoria o).isSome = o.any validCategoria := by
  rcases o with _ | v
  · rfl
  · cases v <;> simp [parseCategoria, validCategoria, Option.any, parseCategoriaList_isSome]

theorem parseUrgencia_isSome (o : Option JSValue) :
    (parseUrgencia o).isSome = o.any validUrgencia := by
  rcases o with _ | v
  · rfl
  · cases v <;> rfl

theorem FeedbackSchema_parse_isSome (v : JSValue) :
    (FeedbackSchema_parse v).isSome = specValid v := by
  cases v with
  | obj fs =>
    rw [specValid, ← parseEntidad_isSome, ← parsePolaridad_isSome,
      ← parseCategoria_isSome, ← parseUrgencia_isSome, FeedbackSchema_parse]
    rcases parseEntidad (jlookup fs "entidad") with _ | e <;>
      rcases parsePolaridad (jlookup fs "polaridad") with _ | p <;>
      rcases parseCategoria (jlookup fs "categoria") with _ | c <;>
      rcases parseUrgencia (jlookup fs "urgencia") with _ | u <;> rfl
  | null => rfl
  | bool b => rfl
  | num n => rfl
  | str s => rfl
  | arr xs => rfl

theorem parsePolaridad_sound (o : Option JSValue) (p : String)
    (h : parsePolaridad o = some p) : (p == "Amor" || p == "Odio") = true := by
  rcases o with _ | v
  · exact absurd h (by simp [parsePolaridad])
  · cases v <;> simp [parsePolaridad] at h
    rcases h with ⟨h1, h2⟩
    subst h2
    simpa using h1

theorem parseCategoriaList_sound (xs : List JSValue) (cs : List String)
    (h : parseCategoriaList xs = some cs) :
    cs.all (fun c => c == "Atención" || c == "App" || c == "Cajeros") = true := by
  induction xs generalizing cs with
  | nil =>
    simp only [parseCategoriaList, Option.some_inj] at h
    simp [← h]
  | cons x xs ih =>
    rw [parseCategoriaList] at h
    rcases hx : parseCatElem x with _ | c <;> rw [hx] at h
    · exact absurd h (by simp)
    · rcases hxs : parseCategoriaList xs with _ | cs' <;> rw [hxs] at h
      · exact absurd h (by simp)
      · have hc : (c == "Atención" || c == "App" || c == "Cajeros") = true := by
          rcases x with _ | _ | _ | s | _ | _ <;> simp [parseCatElem] at hx
          rcases hx with ⟨h1, h2⟩
          subst h2
          simp only [Bool.or_eq_true, beq_iff_eq]
          tauto
        simp only [Option.some_inj] at h
        subst h
        simpa [hc] using ih cs' hxs

theorem parseCategoria_sound (o : Option JSValue) (cs : List String)
    (h : parseCategoria o = some cs) :
    cs.all (fun c => c == "Atención" || c == "App" || c == "Cajeros") = true := by
  rcases o with _ | v
  · exact absurd h (by simp [parseCategoria])
  · rcases v with _ | _ | _ | _ | xs | _ <;> simp only [parseCategoria] at h <;>
      first
        | exact absurd h (by simp)
        | exact parseCategoriaList_sound xs cs h

theorem FeedbackSchema_parse_wellFormed (v : JSValue) (r : FeedbackRecord)
    (h : FeedbackSchema_parse v = some r) : wellFormedRecord r = true := by
  cases v with
  | obj fs =>
    rw [FeedbackSchema_parse] at h
    rcases he : parseEntidad (jlookup fs "entidad") with _ | e <;> rw [he] at h
    · simp at h
    rcases hp : parsePolaridad (jlookup fs "polaridad") with _ | p <;> rw [hp] at h
    · simp at h
    rcases hc : parseCategoria (jlookup fs "categoria") with _ | c <;> rw [hc] at h
    · simp at h
    rcases hu : parseUrgencia (jlookup fs "urgencia") with _ | u <;> rw [hu] at h
    · simp at h
    simp only [Option.some_inj] at h
    subst h
    simp [wellFormedRecord, parsePolaridad_sound _ _ hp, parseCategoria_sound _ _ hc]
  | null => exact absurd h (by simp [FeedbackSchema_parse])
  | bool b => exact absurd h (by simp [FeedbackSchema_parse])
  | num n => exact absurd h (by simp [FeedbackSchema_parse])
  | str s => exact absurd h (by simp [FeedbackSchema_parse])
  | arr xs => exact absurd h (by simp [FeedbackSchema_parse])

theorem validateLine_originalText (line : String) (c : Option JSValue) :
    (validateLine line c).originalText = line := by
  rcases c with _ | v
  · rfl
  · rw [validateLine]
    split
    · cases FeedbackSchema_parse v <;> rfl
    · rfl

theorem alignLines_map_originalText (ls : List String) (cs : List JSValue) :
    (alignLines ls cs).map (fun r => r.originalText) = ls := by
  induction ls generalizing cs with
  | nil => rfl
  | cons l ls ih => simp [alignLines, validateLine_originalText, ih]

theorem validateLine_dichotomy (line : String) (c : Option JSValue) :
    validateLine line c = ⟨line, none, ValidationStatus.Failure⟩
      ∨ ∃ r, validateLine line c = ⟨line, some r, ValidationStatus.Success⟩ := by
  rcases c with _ | v
  · exact Or.inl rfl
  · rw [validateLine]
    split
    · cases FeedbackSchema_parse v with
      | none => exact Or.inl rfl
      | some r => exact Or.inr ⟨r, rfl⟩
    · exact Or.inl rfl

theorem validateLine_invariant (line : String) (c : Option JSValue) :
    lineResultInvariant (validateLine line c) := by
  rcases c with _ | v
  · exact ⟨by simp [validateLine], by simp [validateLine], by simp [validateLine]⟩
  · rw [validateLine]
    split
    · cases hr : FeedbackSchema_parse v with
      | none => exact ⟨by simp, by simp, by simp⟩
      | some rcd =>
        refine ⟨by simp, ?_, by simp⟩
        intro rcd' h'
        simp only [Option.some_inj] at h'
        exact h' ▸ FeedbackSchema_parse_wellFormed v rcd hr
    · exact ⟨by simp, by simp, by simp⟩

theorem mem_alignLines_invariant (ls : List String) (cs : List JSValue)
    (r : LineResult) (h : r ∈ alignLines ls cs) : lineResultInvariant r := by
  induction ls generalizing cs with
  | nil => simp [alignLines] at h
  | cons l ls ih =>
    rw [alignLines, List.mem_cons] at h
    rcases h with h | h
    · subst h
      exact validateLine_invariant l cs.head?
    · exact ih cs.tail h

theorem jlookup_append_of_none (fs extra : List (String × JSValue)) (k : String)
    (h : jlookup extra k = none) : jlookup (fs ++ extra) k = jlookup fs k := by
  induction fs with
  | nil => simpa [jlookup] using h
  | cons kv fs ih =>
    rcases kv with ⟨k', v⟩
    rw [List.cons_append, jlookup, jlookup, ih]

theorem jlookup_none_of_all_ne (extra : List (String × JSValue)) (k : String)
    (h : extra.all (fun kv => kv.1 != k) = true) : jlookup extra k = none := by
  induction extra with
  | nil => rfl
  | cons kv extra ih =>
    rw [List.all_cons, Bool.and_eq_true] at h
    rw [jlookup, ih h.2]
    have : ¬kv.1 = k := by simpa [bne] using h.1
    simp [this]

set_option maxRecDepth 40000

/-- C1.  Alignment invariant: for every model output whatsoever and every
input, the flow's `validatedResults` is index-aligned with the non-blank
lines of `textContent` (the original texts are exactly those lines, in
order) and has exactly their number; candidates beyond that count are
ignored since the result is built by mapping over the line list. -/
theorem C1_alignment_invariant (output : Option JSValue) (input : ExtractInput) :
    ((extractAndValidateFeedbackFlow output input).validatedResults).map
        (fun r => r.originalText) = nonBlankLines input.textContent
      ∧ (extractAndValidateFeedbackFlow output input).validatedResults.length
        = (nonBlankLines input.textContent).length := by
  refine ⟨alignLines_map_originalText _ _, ?_⟩
  have h := congrArg List.length
    (alignLines_map_originalText (nonBlankLines input.textContent) (flowCandidates output))
  simpa using h

/-- C2.  Fault containment: when the model call rejects with any fault,
the public entry point returns (instead of raising) an output whose
`rawResponse` is a non-empty diagnostic embedding the fault's message and
whose `validatedResults` is the full non-blank line list, each entry
`Failure` with a `null` record. -/
theorem C2_fault_containment (fault : String) (input : ExtractInput) :
    (extractAndValidateFeedback (Except.error fault) input).rawResponse ≠ ""
      ∧ (fault ≠ "" →
          (extractAndValidateFeedback (Except.error fault) input).rawResponse
            = "Error en la evaluación: " ++ fault)
      ∧ (extractAndValidateFeedback (Except.error fault) input).validatedResults
        = (nonBlankLines input.textContent).map
            (fun line => ⟨line, none, ValidationStatus.Failure⟩) := by
  refine ⟨?_, ?_, rfl⟩
  · intro h
    have hl := congrArg String.length h
    rw [extractAndValidateFeedback] at hl
    simp only at hl
    rw [String.length_append] at hl
    have hp : 0 < ("Error en la evaluación: ").length := by decide
    have hz : ("" : String).length = 0 := rfl
    rw [hz] at hl
    omega
  · intro hf
    rw [extractAndValidateFeedback]
    simp only
    rw [if_neg hf]

/-- Witness for C2 at a concrete fault and input. -/
theorem C2_fault_containment_witness :
    (extractAndValidateFeedback (Except.error "boom") ⟨"inst", "a\n \nb"⟩).rawResponse
      = "Error en la evaluación: boom" :=
  (C2_fault_containment "boom" ⟨"inst", "a\n \nb"⟩).2.1 (by decide)

/-- C3.  Every `LineResult` produced by the public entry point — on the
normal path or the fault path — satisfies the per-line invariant:
`Success` iff a record is present, any present record is valid for the
four-field schema, and `Failure` pairs with a `null` record. -/
theorem C3_line_invariant (call : Except String (Option JSValue))
    (input : ExtractInput) (r : LineResult)
    (h : r ∈ (extractAndValidateFeedback call input).validatedResults) :
    lineResultInvariant r := by
  cases call with
  | ok output => exact mem_alignLines_invariant _ _ r h
  | error msg =>
    rw [extractAndValidateFeedback] at h
    simp only [List.mem_map] at h
    rcases h with ⟨line, _, h⟩
    rw [← h]
    exact ⟨by simp, by simp, by simp⟩

/-- Witness for C3 at a concrete member of a concrete output. -/
theorem C3_line_invariant_witness :
    lineResultInvariant ⟨"a", none, ValidationStatus.Failure⟩ :=
  C3_line_invariant (Except.error "x") ⟨"inst", "a"⟩
    ⟨"a", none, ValidationStatus.Failure⟩ (by decide)

/-- C4.  The per-line fallback does not split the raw model output: with
raw response `"not json"` (no parseable line at all) and an input whose
single line happens to be a valid JSON record, the earlier flow variant
recovers that candidate from the INPUT line and marks it `Success` —
candidates come from `textContent`'s lines, not from the raw output's —
while the current flow variant, for a string output whose every line is
individually a parseable valid record, attempts no per-line parsing at
all and fails every line. -/
theorem C4_per_line_fallback_code_bug :
    jsonParse "not json" = none
      ∧ (V1.extractAndValidateFeedbackFlow "not json"
            ⟨"inst", "\x7b\"entidad\":\"Gidi\",\"polaridad\":\"Amor\",\"categoria\":[\"App\"],\"urgencia\":true\x7d"⟩).validatedResults
          = [⟨"\x7b\"entidad\":\"Gidi\",\"polaridad\":\"Amor\",\"categoria\":[\"App\"],\"urgencia\":true\x7d",
              some ⟨"Gidi", "Amor", ["App"], true⟩, ValidationStatus.Success⟩]
      ∧ (jsonParse "\x7b\"entidad\":\"a\",\"polaridad\":\"Amor\",\"categoria\":[],\"urgencia\":true\x7d").bind
            FeedbackSchema_parse
          = some ⟨"a", "Amor", [], true⟩
      ∧ (extractAndValidateFeedbackFlow
            (some (JSValue.str
              "\x7b\"entidad\":\"a\",\"polaridad\":\"Amor\",\"categoria\":[],\"urgencia\":true\x7d\n\x7b\"entidad\":\"b\",\"polaridad\":\"Odio\",\"categoria\":[],\"urgencia\":false\x7d"))
            ⟨"inst", "linea uno\nlinea dos"⟩).validatedResults
          = [⟨"linea uno", none, ValidationStatus.Failure⟩,
             ⟨"linea dos", none, ValidationStatus.Failure⟩] :=
  ⟨rfl, rfl, rfl, rfl⟩

/-- C5.  The schema validator accepts a candidate exactly when the four
field constraints of the spec hold: `polaridad` one of the two literals
(case-sensitive, strings only), `categoria` a collection of recognized
literals (empty allowed), `urgencia` a genuine boolean, `entidad` any
string (empty allowed). -/
theorem C5_validator_accepts_iff (v : JSValue) :
    (∃ r, FeedbackSchema_parse v = some r) ↔ specValid v = true := by
  rw [← FeedbackSchema_parse_isSome, Option.isSome_iff_exists]

/-- C6.  Validator totality and field independence: the per-line
validation step always yields either a record with `Success` or a `null`
record with `Failure` (it never raises), and a candidate whose `urgencia`
field alone violates its constraint is rejected exactly like one whose
`polaridad` field alone does. -/
theorem C6_validator_totality (candidate : Option JSValue) (line : String)
    (fs : List (String × JSValue)) :
    (validateLine line candidate = ⟨line, none, ValidationStatus.Failure⟩
        ∨ ∃ r, validateLine line candidate = ⟨line, some r, ValidationStatus.Success⟩)
      ∧ ((jlookup fs "urgencia").any validUrgencia = false →
          FeedbackSchema_parse (JSValue.obj fs) = none)
      ∧ ((jlookup fs "polaridad").any validPolaridad = false →
          FeedbackSchema_parse (JSValue.obj fs) = none) := by
  refine ⟨validateLine_dichotomy line candidate, ?_, ?_⟩
  · intro h
    have hu : parseUrgencia (jlookup fs "urgencia") = none := by
      rcases h' : parseUrgencia (jlookup fs "urgencia") with _ | u
      · rfl
      · have hs := parseUrgencia_isSome (jlookup fs "urgencia")
        rw [h', h] at hs
        simp at hs
    simp only [FeedbackSchema_parse]
    rw [hu]
    rcases parseEntidad (jlookup fs "entidad") with _ | e <;>
      rcases parsePolaridad (jlookup fs "polaridad") with _ | p <;>
      rcases parseCategoria (jlookup fs "categoria") with _ | c <;> rfl
  · intro h
    have hp : parsePolaridad (jlookup fs "polaridad") = none := by
      rcases h' : parsePolaridad (jlookup fs "polaridad") with _ | p
      · rfl
      · have hs := parsePolaridad_isSome (jlookup fs "polaridad")
        rw [h', h] at hs
        simp at hs
    simp only [FeedbackSchema_parse]
    rw [hp]
    rcases parseEntidad (jlookup fs "entidad") with _ | e <;>
      rcases parseCategoria (jlookup fs "categoria") with _ | c <;>
      rcases parseUrgencia (jlookup fs "urgencia") with _ | u <;> rfl

/-- Witness for C6: a candidate failing only on `urgencia` (a number
standing for a boolean) and one failing only on `polaridad` (wrong case)
are both rejected. -/
theorem C6_validator_totality_witness :
    FeedbackSchema_parse (JSValue.obj [("entidad", JSValue.str "x"),
        ("polaridad", JSValue.str "Amor"), ("categoria", JSValue.arr []),
        ("urgencia", JSValue.num 1)]) = none
      ∧ FeedbackSchema_parse (JSValue.obj [("entidad", JSValue.str "x"),
          ("polaridad", JSValue.str "amor"), ("categoria", JSValue.arr []),
          ("urgencia", JSValue.bool true)]) = none :=
  ⟨(C6_validator_totality none "x" [("entidad", JSValue.str "x"),
      ("polaridad", JSValue.str "Amor"), ("categoria", JSValue.arr []),
      ("urgencia", JSValue.num 1)]).2.1 (by decide),
   (C6_validator_totality none "x" [("entidad", JSValue.str "x"),
      ("polaridad", JSValue.str "amor"), ("categoria", JSValue.arr []),
      ("urgencia", JSValue.bool true)]).2.2 (by decide)⟩

/-- C7 counterexample.  When the model produces no output at all
(`output` is `undefined`), the flow's `rawResponse` is the synthesized
placeholder `"[]"` — it does not show anything the model produced
(`JSON.stringify(undefined)` is not even a string), so `rawResponse` is
not always free of synthesized placeholders outside the fault path. -/
theorem C7_raw_verbatim_counterexample :
    (extractAndValidateFeedbackFlow none ⟨"inst", "hola"⟩).rawResponse = "[]"
      ∧ ¬ rawShowsModelOutput none
          ((extractAndValidateFeedbackFlow none ⟨"inst", "hola"⟩).rawResponse) :=
  ⟨rfl, fun h => h⟩

/-- Rendering a digit list with `Nat.toDigitsCore` never shortens the
accumulator. -/
theorem toDigitsCore_length_ge (b : Nat) :
    ∀ (fuel n : Nat) (ds : List Char), ds.length ≤ (Nat.toDigitsCore b fuel n ds).length := by
  intro fuel
  induction fuel with
  | zero => intro n ds; simp [Nat.toDigitsCore]
  | succ f ih =>
    intro n ds
    show ds.length ≤ (if n / b = 0 then (n % b).digitChar :: ds
        else Nat.toDigitsCore b f (n / b) ((n % b).digitChar :: ds)).length
    split
    · simp
    · calc ds.length ≤ ((n % b).digitChar :: ds).length := by simp
        _ ≤ _ := ih (n / b) _

theorem toDigitsCore_ne_nil (b f n : Nat) (ds : List Char) :
    Nat.toDigitsCore b (f + 1) n ds ≠ [] := by
  show (if n / b = 0 then (n % b).digitChar :: ds
      else Nat.toDigitsCore b f (n / b) ((n % b).digitChar :: ds)) ≠ []
  split
  · simp
  · intro h
    have hlen := toDigitsCore_length_ge b f (n / b) ((n % b).digitChar :: ds)
    rw [h] at hlen
    simp at hlen

theorem Nat_repr_ne_empty (n : Nat) : Nat.repr n ≠ "" := by
  intro h
  have hd := congrArg String.data h
  exact toDigitsCore_ne_nil 10 n n [] hd

theorem Int_toString_ne_empty (n : Int) : toString n ≠ "" := by
  cases n with
  | ofNat m => exact Nat_repr_ne_empty m
  | negSucc m =>
    intro h
    have h2 : (("-" : String) ++ toString (m + 1)).length = ("" : String).length :=
      congrArg String.length h
    rw [String.length_append] at h2
    have hp : 0 < ("-" : String).length := by decide
    have hz : ("" : String).length = 0 := rfl
    omega

/-- `JSON.stringify(v, null, 2)` is never the empty string, whatever the
value: every shape renders at least one character. -/
theorem jsonStringify_ne_empty (v : JSValue) : jsonStringify 0 v ≠ "" := by
  have hz : ("" : String).length = 0 := rfl
  cases v with
  | null => decide
  | bool b => cases b <;> decide
  | num n => exact Int_toString_ne_empty n
  | str s =>
    intro h
    have hl := congrArg String.length h
    rw [jsonStringify, escapeJsonString] at hl
    simp only [String.length_append] at hl
    rw [hz] at hl
    have hp : 0 < ("\"" : String).length := by decide
    omega
  | arr xs =>
    cases xs with
    | nil => decide
    | cons x xs =>
      intro h
      have hl := congrArg String.length h
      rw [jsonStringify] at hl
      simp only [String.length_append] at hl
      rw [hz] at hl
      have hp : 0 < ("[\n" : String).length := by decide
      omega
  | obj fs =>
    cases fs with
    | nil => decide
    | cons m ms =>
      rcases m with ⟨k, w⟩
      intro h
      have hl := congrArg String.length h
      rw [jsonStringify] at hl
      simp only [String.length_append] at hl
      rw [hz] at hl
      have hp : 0 < ("\x7b\n" : String).length := by decide
      omega

/-- For a non-string output (so the serialization branch of line 111 is
taken, witnessed by `hs` holding definitionally), `rawResponse` is
exactly the serialization: the `|| '[]'` guard never fires because the
serialization of a present value is never empty. -/
theorem flowRawResponse_structured (v : JSValue)
    (hv : jsonStringify 0 v ≠ "")
    (hs : flowRawResponse (some v)
      = match jsonStringifyOpt (some v) with
        | some s => if s = "" then "[]" else s
        | none => "[]") :
    flowRawResponse (some v) = jsonStringify 0 v := by
  rw [hs, jsonStringifyOpt]
  exact if_neg hv

/-- C7 amended.  Outside the fault path, a string model output is shown
verbatim in `rawResponse` (even when it fails to parse entirely), and
every structured output — null, boolean, number, array or object — is
shown as its JSON serialization; the synthesized placeholder `"[]"`
appears only when the model produced no output at all. -/
theorem C7_raw_verbatim_amended :
    (∀ (s : String) (input : ExtractInput),
        (extractAndValidateFeedbackFlow (some (JSValue.str s)) input).rawResponse = s)
      ∧ (∀ input : ExtractInput,
          (extractAndValidateFeedbackFlow (some JSValue.null) input).rawResponse
            = jsonStringify 0 JSValue.null)
      ∧ (∀ (b : Bool) (input : ExtractInput),
          (extractAndValidateFeedbackFlow (some (JSValue.bool b)) input).rawResponse
            = jsonStringify 0 (JSValue.bool b))
      ∧ (∀ (n : Int) (input : ExtractInput),
          (extractAndValidateFeedbackFlow (some (JSValue.num n)) input).rawResponse
            = jsonStringify 0 (JSValue.num n))
      ∧ (∀ (xs : List JSValue) (input : ExtractInput),
          (extractAndValidateFeedbackFlow (some (JSValue.arr xs)) input).rawResponse
            = jsonStringify 0 (JSValue.arr xs))
      ∧ (∀ (fs : List (String × JSValue)) (input : ExtractInput),
          (extractAndValidateFeedbackFlow (some (JSValue.obj fs)) input).rawResponse
            = jsonStringify 0 (JSValue.obj fs))
      ∧ (∀ input : ExtractInput,
          (extractAndValidateFeedbackFlow none input).rawResponse = "[]") := by
  refine ⟨fun s input => rfl, fun input => ?_, fun b input => ?_, fun n input => ?_,
    fun xs input => ?_, fun fs input => ?_, fun input => rfl⟩
  · exact flowRawResponse_structured JSValue.null (jsonStringify_ne_empty _) rfl
  · exact flowRawResponse_structured (JSValue.bool b) (jsonStringify_ne_empty _) rfl
  · exact flowRawResponse_structured (JSValue.num n) (jsonStringify_ne_empty _) rfl
  · exact flowRawResponse_structured (JSValue.arr xs) (jsonStringify_ne_empty _) rfl
  · exact flowRawResponse_structured (JSValue.obj fs) (jsonStringify_ne_empty _) rfl

/-- C8 counterexample.  The model prompt embeds the raw `textContent`
verbatim, not the blank-discarded canonical line list: for a content with
a blank line the two prompts differ, so the canonical list is not what
the model call uses. -/
theorem C8_canonical_list_counterexample :
    nonBlankLines "linea uno\n\nlinea dos" = ["linea uno", "linea dos"]
      ∧ buildPrompt "inst" "linea uno\n\nlinea dos"
        ≠ buildPrompt "inst"
            (String.intercalate "\n" (nonBlankLines "linea uno\n\nlinea dos")) := by
  exact ⟨rfl, by decide⟩

/-- C8 amended.  The caller trims `systemInstruction` before invoking the
pipeline, so the prompt embeds the trimmed instruction; `textContent` is
split on line breaks with blank lines discarded to form the canonical
line list used for alignment — but the model prompt embeds the raw
`textContent` verbatim, not that list. -/
theorem C8_trim_and_alignment_amended (si tc : String) (output : Option JSValue) :
    (runEvaluationInput si tc).systemInstruction = jsTrim si
      ∧ ((extractAndValidateFeedbackFlow output (runEvaluationInput si tc)).validatedResults).map
          (fun r => r.originalText) = nonBlankLines tc
      ∧ ∃ pre mid post,
          buildPrompt ((runEvaluationInput si tc).systemInstruction)
              ((runEvaluationInput si tc).textContent)
            = pre ++ jsTrim si ++ mid ++ tc ++ post :=
  ⟨rfl, alignLines_map_originalText _ _,
    ⟨promptTemplateA, promptTemplateB, promptTemplateC, rfl⟩⟩

/-- C9.  The validator is lenient about unrecognized fields: appending
any extra members whose keys are none of the four expected ones leaves
the validation outcome unchanged (in particular a valid candidate still
validates, and the returned record only ever carries the four expected
fields). -/
theorem C9_extra_fields_lenient (fs extra : List (String × JSValue))
    (h : extra.all (fun kv => !(kv.1 == "entidad" || kv.1 == "polaridad"
        || kv.1 == "categoria" || kv.1 == "urgencia")) = true) :
    FeedbackSchema_parse (JSValue.obj (fs ++ extra))
      = FeedbackSchema_parse (JSValue.obj fs) := by
  have hk : ∀ k : String, k = "entidad" ∨ k = "polaridad" ∨ k = "categoria"
      ∨ k = "urgencia" → jlookup extra k = none := by
    intro k hkk
    apply jlookup_none_of_all_ne
    rw [List.all_eq_true] at h ⊢
    intro kv hkv
    have hx := h kv hkv
    simp only [Bool.not_eq_eq_eq_not, Bool.not_true, Bool.or_eq_false_iff,
      beq_eq_false_iff_ne, ne_eq] at hx
    rcases hkk with rfl | rfl | rfl | rfl <;> simp [bne] <;> tauto
  simp only [FeedbackSchema_parse]
  rw [jlookup_append_of_none fs extra "entidad" (hk _ (Or.inl rfl)),
    jlookup_append_of_none fs extra "polaridad" (hk _ (Or.inr (Or.inl rfl))),
    jlookup_append_of_none fs extra "categoria" (hk _ (Or.inr (Or.inr (Or.inl rfl)))),
    jlookup_append_of_none fs extra "urgencia" (hk _ (Or.inr (Or.inr (Or.inr rfl))))]

/-- Witness for C9: a valid candidate with two extra unrecognized fields
still validates, to the record carrying only the four expected fields. -/
theorem C9_extra_fields_lenient_witness :
    FeedbackSchema_parse (JSValue.obj
        ([("entidad", JSValue.str "Gidi"), ("polaridad", JSValue.str "Amor"),
          ("categoria", JSValue.arr [JSValue.str "App"]), ("urgencia", JSValue.bool true)]
          ++ [("nota", JSValue.num 5), ("comentario", JSValue.str "extra")]))
      = some ⟨"Gidi", "Amor", ["App"], true⟩ := by
  rw [C9_extra_fields_lenient _ _ (by decide)]
  rfl

/-- C10.  A falsy candidate at a line's position (null, false, 0, the
empty string) is treated exactly like an absent candidate: the line gets
`Failure` with a `null` record, identical to the out-of-bounds case, and
the schema validator is never consulted (the result is fixed before any
parse). -/
theorem C10_falsy_candidate (line : String) (c : JSValue)
    (h : truthy c = false) :
    validateLine line (some c) = ⟨line, none, ValidationStatus.Failure⟩
      ∧ validateLine line (some c) = validateLine line none := by
  have h1 : validateLine line (some c) = ⟨line, none, ValidationStatus.Failure⟩ := by
    rw [validateLine, if_neg]
    simp [h]
  exact ⟨h1, by rw [h1]; rfl⟩

/-- Witness for C10 at the four falsy values of the claim. -/
theorem C10_falsy_candidate_witness :
    validateLine "linea" (some JSValue.null) = ⟨"linea", none, ValidationStatus.Failure⟩
      ∧ validateLine "linea" (some (JSValue.bool false))
        = ⟨"linea", none, ValidationStatus.Failure⟩
      ∧ validateLine "linea" (some (JSValue.num 0)) = validateLine "linea" none
      ∧ validateLine "linea" (some (JSValue.str "")) = validateLine "linea" none :=
  ⟨(C10_falsy_candidate "linea" JSValue.null (by decide)).1,
   (C10_falsy_candidate "linea" (JSValue.bool false) (by decide)).1,
   (C10_falsy_candidate "linea" (JSValue.num 0) (by decide)).2,
   (C10_falsy_candidate "linea" (JSValue.str "") (by decide)).2⟩
